import Mathlib

/-!
Verification of the momentum agent supervisor and dashboard.

Shallow embedding of the Go sources:
* `agent/claude.go` — the `ClaudeCode` agent: `Wait`, `Cancel`.
* `agent/claude_windows.go` — the process-tree terminator `killProcessTree`.
* `ui/dashboard.go` — the dashboard state machine: panels, focus, scroll,
  domain events, input actions, `Send`, `CancelAllAgents`.
* `ui/dashboard_test.go` / `tui` agent pane — `truncate`, `truncateString`,
  `clampScroll`.

Go machine integers are modelled as `Int` (no arithmetic here comes near
overflow); Go strings handled byte-wise (`truncate` slices by byte index)
are modelled as `List Char`, one `Char` per byte. External effects
(signal delivery, process exit, the wall clock, the output parser) are
explicit parameters, so every definition is an executable function.
-/

namespace Momentum

/-- A Go `error` value: either the sentinel `ErrAgentNotStarted` or some
other error described by its message. -/
inductive GoError
  | agentNotStarted
  | other (msg : String)
  deriving DecidableEq

/-- `agent.OutputLine`: one line of subprocess output. The timestamp is an
abstract instant, modelled as `Nat`. -/
structure OutputLine where
  text : String
  isStderr : Bool
  timestamp : Nat
  deriving DecidableEq

/-- `agent.Result` as the dashboard consumes it: only the exit code is
inspected (`statusForPanel`); duration and error are render-irrelevant
here. -/
structure AgentResult where
  exitCode : Int
  deriving DecidableEq

/-- The dashboard's view of an `agent.Runner` pointer: whether the run is
still active (`IsRunning()`) and its process id (`PID()`). -/
structure RunnerRef where
  running : Bool
  pid : Int
  deriving DecidableEq

/-- Outcome of Go's `cmd.Wait()`: `success` is a zero exit; `exitError n`
is an `*exec.ExitError` whose `ExitCode()` is `n` (non-zero exit, or `-1`
for a signal-killed process); `otherError` is any other failure. -/
inductive CmdWaitResult
  | success
  | exitError (code : Int)
  | otherError (e : GoError)
  deriving DecidableEq

/-- The mutable fields of `agent.ClaudeCode` that `Wait` and `Cancel`
inspect: `started` stands for `c.cmd != nil`, `running` for `c.running`. -/
structure ClaudeCode where
  started : Bool
  running : Bool
  deriving DecidableEq

/-- Return value of `ClaudeCode.Wait`: the `(int, error)` pair, the state
after the call, and how many times the call wrote `running = false`. -/
structure WaitReturn where
  exitCode : Int
  error : Option GoError
  state : ClaudeCode
  runningWrites : Nat
  deriving DecidableEq

/-- `ClaudeCode.Wait` (agent/claude.go:107-125). If `c.cmd == nil` it
returns `(-1, ErrAgentNotStarted)` without touching the running flag.
Otherwise it sets `running = false` once and translates the outcome of
`cmd.Wait()`: an `ExitError` becomes `(ExitCode(), nil)`, any other error
becomes `(-1, err)`, and a clean wait becomes `(0, nil)`. -/
def ClaudeCode.Wait (c : ClaudeCode) (w : CmdWaitResult) : WaitReturn :=
  if c.started = false then
    ⟨-1, some GoError.agentNotStarted, c, 0⟩
  else
    match w with
    | CmdWaitResult.success => ⟨0, none, { c with running := false }, 1⟩
    | CmdWaitResult.exitError n => ⟨n, none, { c with running := false }, 1⟩
    | CmdWaitResult.otherError e => ⟨-1, some e, { c with running := false }, 1⟩

/-- Process-level actions a cancellation path can perform.
`signalInterrupt` is `Process.Signal(os.Interrupt)`; `killProc` is
`Process.Kill()`, which terminates only the process itself (Go stdlib
semantics, and the repository's own comment calls it a "direct process
kill"); `killTree` is a whole-process-tree termination such as
`taskkill /T /F` in `killProcessTree`. -/
inductive ProcAction
  | signalInterrupt
  | killProc
  | killTree
  deriving DecidableEq

/-- Environment oracle for `ClaudeCode.Cancel`: whether the interrupt
signal can be delivered, whether the process exits within the grace
window, and whether `Process.Kill()` succeeds. -/
structure CancelEnv where
  signalDelivered : Bool
  exitsWithinGrace : Bool
  killSucceeds : Bool
  deriving DecidableEq

/-- Return value of a cancellation path: the process-level actions
attempted, in order, and the returned `error`. -/
structure CancelReturn where
  actions : List ProcAction
  error : Option GoError
  deriving DecidableEq

/-- The grace window `Cancel` allows for a natural exit after the
interrupt signal, in seconds (agent/claude.go:152, `5 * time.Second`). -/
def graceWindowSeconds : Nat := 5

/-- `ClaudeCode.Cancel` (agent/claude.go:128-155). No-op returning `nil`
when not running, or when `c.cmd`/`c.cmd.Process` is nil (`hasProcess`).
Otherwise it attempts `Process.Signal(os.Interrupt)`; if that fails it
immediately calls `Process.Kill()` and returns its result. If the signal
is delivered it waits up to `graceWindowSeconds` for the process to exit;
on timeout it calls `Process.Kill()`. -/
def ClaudeCode.Cancel (c : ClaudeCode) (hasProcess : Bool) (env : CancelEnv) : CancelReturn :=
  if !c.running || !c.started || !hasProcess then
    ⟨[], none⟩
  else if !env.signalDelivered then
    ⟨[ProcAction.signalInterrupt, ProcAction.killProc],
      if env.killSucceeds then none else some (GoError.other "kill failed")⟩
  else if env.exitsWithinGrace then
    ⟨[ProcAction.signalInterrupt], none⟩
  else
    ⟨[ProcAction.signalInterrupt, ProcAction.killProc],
      if env.killSucceeds then none else some (GoError.other "kill failed")⟩

/-- `killProcessTree` (agent/claude_windows.go:17-25): runs
`taskkill /T /F` on the pid (a process-tree kill); if that command fails
it falls back to a direct `process.Kill()`. `ClaudeCode.Cancel` never
calls this function. -/
def killProcessTree (taskkillSucceeds killSucceeds : Bool) : CancelReturn :=
  if taskkillSucceeds then
    ⟨[ProcAction.killTree], none⟩
  else
    ⟨[ProcAction.killTree, ProcAction.killProc],
      if killSucceeds then none else some (GoError.other "kill failed")⟩

/-- The three-byte ellipsis marker `"..."` appended by truncation. -/
def ellipsisMark : List Char := ['.', '.', '.']

/-- `truncate` (ui/dashboard.go:814-825), on byte sequences. `maxLen ≤ 0`
yields the empty string; a string that fits is returned unchanged;
`maxLen ≤ 3` hard-cuts with no suffix; otherwise the string is cut to
`maxLen - 3` bytes and `"..."` is appended. -/
def truncate (s : List Char) (maxLen : Int) : List Char :=
  if maxLen ≤ 0 then []
  else if (s.length : Int) ≤ maxLen then s
  else if maxLen ≤ 3 then s.take maxLen.toNat
  else s.take (maxLen - 3).toNat ++ ellipsisMark

/-- `truncateString` (tui agent pane, part_003:170-178), on byte
sequences. For `maxLen ≤ 3` it returns the string UNCHANGED (no length
bound); a string that fits is returned unchanged; otherwise it cuts to
`maxLen - 3` bytes and appends `"..."`. -/
def truncateString (s : List Char) (maxLen : Int) : List Char :=
  if maxLen ≤ 3 then s
  else if (s.length : Int) ≤ maxLen then s
  else s.take (maxLen - 3).toNat ++ ellipsisMark

/-- `clampScroll` (ui/dashboard.go:846-864): the single scroll-position
clamp. `viewHeight ≤ 0` gives 0; otherwise with
`maxStart = max(0, totalLines - viewHeight)`, follow mode gives
`maxStart` and otherwise `current` is clamped into `[0, maxStart]`. -/
def clampScroll (totalLines viewHeight current : Int) (follow : Bool) : Int :=
  if viewHeight ≤ 0 then 0
  else
    let m := totalLines - viewHeight
    let maxStart := if m < 0 then 0 else m
    if follow then maxStart
    else if current < 0 then 0
    else if current > maxStart then maxStart
    else current

/-- The dashboard's input actions (ui/dashboard.go:160-173). -/
inductive InputAction
  | actionNone
  | actionQuit
  | actionToggleMode
  | actionSelectNext
  | actionSelectPrev
  | actionStop
  | actionClose
  | actionScrollLines
  | actionScrollPage
  | actionScrollTop
  | actionScrollBottom
  | actionFollow
  deriving DecidableEq

/-- A mapped input event: an action with an integer argument
(ui/dashboard.go:155-158). -/
structure InputEvent where
  action : InputAction
  value : Int
  deriving DecidableEq

/-- The dashboard's domain events (ui/dashboard.go:90-122). -/
inductive DashEvent
  | listenerConnected
  | listenerError (e : GoError)
  | addAgent (taskID taskTitle agentName : String) (runner : Option RunnerRef)
  | agentOutput (taskID : String) (line : OutputLine)
  | agentCompleted (taskID : String) (result : AgentResult)
  | versionCheck (latestVersion : String) (updateAvailable : Bool)
  deriving DecidableEq

/-- `ui.AgentPanel` (ui/dashboard.go:125-141). `cancelCalls` is
instrumentation counting how many `Runner.Cancel()` calls the dashboard
has issued for this panel; it is written exactly where the Go code calls
`panel.Runner.Cancel()`. -/
structure AgentPanel where
  id : String
  taskID : String
  taskTitle : String
  agentName : String
  runner : Option RunnerRef
  output : List OutputLine
  startTime : Nat
  endTime : Nat
  result : Option AgentResult
  scrollPos : Int
  follow : Bool
  focused : Bool
  closed : Bool
  stopping : Bool
  pid : Int
  cancelCalls : Nat
  deriving DecidableEq

/-- `AgentPanel.IsRunning` (ui/dashboard.go:144-146):
`p.Runner != nil && p.Runner.IsRunning()`. -/
def AgentPanel.isRunning (p : AgentPanel) : Bool :=
  match p.runner with
  | some r => r.running
  | none => false

/-- `ui.Dashboard` (ui/dashboard.go:176-203). Channels are modelled as
lists: `events` is the bounded event queue (capacity 200);
`modeUpdatesSent` and `stopUpdatesSent` record the best-effort
notifications pushed onto the outbound channels. The external
`ExecutionMode` is modelled by the boolean orbit of its `Toggle()`. -/
structure Dashboard where
  criteria : String
  mode : Bool
  events : List DashEvent
  listening : Bool
  connected : Bool
  lastError : Option GoError
  taskCount : Nat
  panels : List AgentPanel
  focusedPanel : Int
  nextPanelID : Nat
  progressTick : Nat
  updateAvailable : Bool
  latestVersion : String
  width : Int
  height : Int
  modeUpdatesSent : List Bool
  stopUpdatesSent : List String
  deriving DecidableEq

/-- `NewDashboard` (ui/dashboard.go:206-217): empty panel list, focus -1,
empty queues. -/
def NewDashboard (criteria : String) (mode : Bool) : Dashboard where
  criteria := criteria
  mode := mode
  events := []
  listening := false
  connected := false
  lastError := none
  taskCount := 0
  panels := []
  focusedPanel := -1
  nextPanelID := 0
  progressTick := 0
  updateAvailable := false
  latestVersion := ""
  width := 0
  height := 0
  modeUpdatesSent := []
  stopUpdatesSent := []

/-- `Dashboard.outputViewHeight` (ui/dashboard.go:545-557): terminal
height divided by three, clamped into `[8, 18]`; fallback 8 when the
height is unknown or non-positive. -/
def Dashboard.outputViewHeight (d : Dashboard) : Int :=
  if d.height ≤ 0 then 8
  else
    let view := d.height / 3
    let view := if view < 8 then 8 else view
    if view > 18 then 18 else view

/-- Replace the element at index `i` by `f` of it; out-of-range indices
leave the list unchanged. Mirrors Go's mutation of `d.panels[i]` through
its pointer. -/
def modifyAt {α : Type} (l : List α) (i : Nat) (f : α → α) : List α :=
  match l, i with
  | [], _ => []
  | a :: rest, 0 => f a :: rest
  | a :: rest, n + 1 => a :: modifyAt rest n f

/-- Remove the element at index `i`; mirrors Go's
`append(panels[:i], panels[i+1:]...)`. -/
def removeAt {α : Type} (l : List α) (i : Nat) : List α :=
  match l, i with
  | [], _ => []
  | _ :: rest, 0 => rest
  | a :: rest, n + 1 => a :: removeAt rest n

/-- `Dashboard.addAgentPanel` (ui/dashboard.go:407-432): allocates the
next panel id, captures the runner's pid, appends a fresh follow-mode
panel, and focuses it if it is the first panel. `now` is the wall clock
read by `time.Now()`. -/
def Dashboard.addAgentPanel (d : Dashboard) (now : Nat)
    (taskID taskTitle agentName : String) (runner : Option RunnerRef) : Dashboard :=
  let nextID := d.nextPanelID + 1
  let pid : Int := match runner with | some r => r.pid | none => 0
  let panel : AgentPanel :=
    { id := "agent-" ++ toString nextID
      taskID := taskID
      taskTitle := taskTitle
      agentName := agentName
      runner := runner
      output := []
      startTime := now
      endTime := 0
      result := none
      scrollPos := 0
      follow := true
      focused := false
      closed := false
      stopping := false
      pid := pid
      cancelCalls := 0 }
  let panels := d.panels ++ [panel]
  { d with
    nextPanelID := nextID
    panels := panels
    focusedPanel := if panels.length = 1 then 0 else d.focusedPanel }

/-- Body of the `appendAgentOutput` loop for the matching panel
(ui/dashboard.go:439-452): parse the text, drop the line if the parse is
empty, otherwise append the parsed line and, in follow mode, re-clamp the
scroll position against the new length. -/
def appendToPanel (parse : String → String) (viewHeight : Int)
    (line : OutputLine) (p : AgentPanel) : AgentPanel :=
  let parsed := parse line.text
  if parsed = "" then p
  else
    let p' := { p with output := p.output ++ [OutputLine.mk parsed line.isStderr line.timestamp] }
    if p'.follow then
      { p' with scrollPos := clampScroll (p'.output.length : Int) viewHeight p'.scrollPos true }
    else p'

/-- The panel-list traversal of `appendAgentOutput`
(ui/dashboard.go:434-454): only the first panel whose task id matches is
touched; the loop returns immediately after it. -/
def appendAgentOutputList (parse : String → String) (viewHeight : Int)
    (taskID : String) (line : OutputLine) : List AgentPanel → List AgentPanel
  | [] => []
  | p :: rest =>
    if p.taskID = taskID then appendToPanel parse viewHeight line p :: rest
    else p :: appendAgentOutputList parse viewHeight taskID line rest

/-- `Dashboard.appendAgentOutput` (ui/dashboard.go:434-454). -/
def Dashboard.appendAgentOutput (d : Dashboard) (parse : String → String)
    (taskID : String) (line : OutputLine) : Dashboard :=
  { d with panels := appendAgentOutputList parse d.outputViewHeight taskID line d.panels }

/-- The panel-list traversal of `completeAgent` (ui/dashboard.go:456-467):
the first matching panel gets the result, the end time, and its runner
reference released; the returned flag says whether a panel matched. -/
def completeAgentList (now : Nat) (taskID : String) (result : AgentResult) :
    List AgentPanel → List AgentPanel × Bool
  | [] => ([], false)
  | p :: rest =>
    if p.taskID = taskID then
      ({ p with result := some result, endTime := now, runner := none } :: rest, true)
    else
      let r := completeAgentList now taskID result rest
      (p :: r.1, r.2)

/-- `Dashboard.completeAgent` (ui/dashboard.go:456-467): also increments
the completed-task counter when a panel matched. -/
def Dashboard.completeAgent (d : Dashboard) (now : Nat)
    (taskID : String) (result : AgentResult) : Dashboard :=
  let r := completeAgentList now taskID result d.panels
  { d with panels := r.1, taskCount := d.taskCount + (if r.2 then 1 else 0) }

/-- `Dashboard.ensureFollow` (ui/dashboard.go:500-507): on a valid index,
re-enable follow and re-clamp the panel's scroll position to the bottom. -/
def Dashboard.ensureFollow (d : Dashboard) (index : Int) : Dashboard :=
  if index < 0 ∨ (d.panels.length : Int) ≤ index then d
  else
    { d with panels := modifyAt d.panels index.toNat (fun p =>
        { p with
          follow := true
          scrollPos := clampScroll (p.output.length : Int) d.outputViewHeight p.scrollPos true }) }

/-- The mutation both stop paths apply to a panel:
`panel.Stopping = true` followed by `panel.Runner.Cancel()` (the cancel
call recorded in `cancelCalls`). -/
def markStopping (p : AgentPanel) : AgentPanel :=
  { p with stopping := true, cancelCalls := p.cancelCalls + 1 }

/-- `Dashboard.stopFocusedPanel` (ui/dashboard.go:469-484): on a valid
focused index, if the panel is running, has a runner, and is not already
stopping, mark it stopping, issue `Runner.Cancel()` (counted in
`cancelCalls`), and best-effort notify the stop channel. -/
def Dashboard.stopFocusedPanel (d : Dashboard) : Dashboard :=
  if d.focusedPanel < 0 ∨ (d.panels.length : Int) ≤ d.focusedPanel then d
  else
    match d.panels.get? d.focusedPanel.toNat with
    | none => d
    | some panel =>
      if panel.isRunning && panel.runner.isSome && !panel.stopping then
        { d with
          panels := modifyAt d.panels d.focusedPanel.toNat markStopping
          stopUpdatesSent := d.stopUpdatesSent ++ [panel.taskID] }
      else d

/-- `Dashboard.closeFocusedPanel` (ui/dashboard.go:486-498): on a valid
focused index, remove the focused panel; focus becomes -1 when the list
empties, and is pulled back to the new last index when it fell off the
end. -/
def Dashboard.closeFocusedPanel (d : Dashboard) : Dashboard :=
  if d.focusedPanel < 0 ∨ (d.panels.length : Int) ≤ d.focusedPanel then d
  else
    let panels := removeAt d.panels d.focusedPanel.toNat
    if panels.length = 0 then
      { d with panels := panels, focusedPanel := -1 }
    else if (panels.length : Int) ≤ d.focusedPanel then
      { d with panels := panels, focusedPanel := (panels.length : Int) - 1 }
    else
      { d with panels := panels }

/-- `Dashboard.scrollOutput` (ui/dashboard.go:509-516): relative scroll
on the focused panel; disables follow and clamps. -/
def Dashboard.scrollOutput (d : Dashboard) (delta : Int) : Dashboard :=
  if d.focusedPanel < 0 ∨ (d.panels.length : Int) ≤ d.focusedPanel then d
  else
    { d with panels := modifyAt d.panels d.focusedPanel.toNat (fun p =>
        { p with
          follow := false
          scrollPos := clampScroll (p.output.length : Int) d.outputViewHeight (p.scrollPos + delta) false }) }

/-- `Dashboard.scrollToTop` (ui/dashboard.go:518-525). -/
def Dashboard.scrollToTop (d : Dashboard) : Dashboard :=
  if d.focusedPanel < 0 ∨ (d.panels.length : Int) ≤ d.focusedPanel then d
  else
    { d with panels := modifyAt d.panels d.focusedPanel.toNat (fun p =>
        { p with follow := false, scrollPos := 0 }) }

/-- `Dashboard.scrollToBottom` (ui/dashboard.go:527-534). -/
def Dashboard.scrollToBottom (d : Dashboard) : Dashboard :=
  if d.focusedPanel < 0 ∨ (d.panels.length : Int) ≤ d.focusedPanel then d
  else
    { d with panels := modifyAt d.panels d.focusedPanel.toNat (fun p =>
        { p with
          follow := true
          scrollPos := clampScroll (p.output.length : Int) d.outputViewHeight p.scrollPos true }) }

/-- `Dashboard.setFollow` (ui/dashboard.go:536-543). -/
def Dashboard.setFollow (d : Dashboard) (follow : Bool) : Dashboard :=
  if d.focusedPanel < 0 ∨ (d.panels.length : Int) ≤ d.focusedPanel then d
  else
    { d with panels := modifyAt d.panels d.focusedPanel.toNat (fun p =>
        { p with
          follow := follow
          scrollPos := clampScroll (p.output.length : Int) d.outputViewHeight p.scrollPos follow }) }

/-- The select-next focus update (ui/dashboard.go:352-357): advance, or
wrap to index 0 from the last index. -/
def nextFocus (d : Dashboard) : Int :=
  if d.focusedPanel < (d.panels.length : Int) - 1 then d.focusedPanel + 1 else 0

/-- The select-prev focus update (ui/dashboard.go:362-367): retreat, or
wrap to the last index from index 0. -/
def prevFocus (d : Dashboard) : Int :=
  if d.focusedPanel > 0 then d.focusedPanel - 1 else (d.panels.length : Int) - 1

/-- `Dashboard.handleInput` (ui/dashboard.go:337-385): dispatch one
mapped input action; the boolean is the quit signal returned to the
event loop. -/
def Dashboard.handleInput (d : Dashboard) (input : InputEvent) : Dashboard × Bool :=
  match input.action with
  | InputAction.actionNone => (d, false)
  | InputAction.actionQuit => (d, true)
  | InputAction.actionToggleMode =>
    ({ d with mode := !d.mode, modeUpdatesSent := d.modeUpdatesSent ++ [!d.mode] }, false)
  | InputAction.actionSelectNext =>
    if d.panels.length = 0 then (d, false)
    else (({ d with focusedPanel := nextFocus d }).ensureFollow (nextFocus d), false)
  | InputAction.actionSelectPrev =>
    if d.panels.length = 0 then (d, false)
    else (({ d with focusedPanel := prevFocus d }).ensureFollow (prevFocus d), false)
  | InputAction.actionStop => (d.stopFocusedPanel, false)
  | InputAction.actionClose => (d.closeFocusedPanel, false)
  | InputAction.actionScrollLines => (d.scrollOutput input.value, false)
  | InputAction.actionScrollPage => (d.scrollOutput (input.value * d.outputViewHeight), false)
  | InputAction.actionScrollTop => (d.scrollToTop, false)
  | InputAction.actionScrollBottom => (d.scrollToBottom, false)
  | InputAction.actionFollow => (d.setFollow true, false)

/-- `Dashboard.handleEvent` (ui/dashboard.go:387-405): dispatch one
domain event. `parse` is the `parseClaudeOutput` text transformer applied
to agent output (its definition lives outside the embedded sources, so it
is an explicit parameter); `now` is the wall clock. -/
def Dashboard.handleEvent (d : Dashboard) (parse : String → String) (now : Nat)
    (ev : DashEvent) : Dashboard :=
  match ev with
  | DashEvent.listenerConnected =>
    { d with connected := true, listening := true, lastError := none }
  | DashEvent.listenerError e => { d with lastError := some e }
  | DashEvent.addAgent taskID taskTitle agentName runner =>
    d.addAgentPanel now taskID taskTitle agentName runner
  | DashEvent.agentOutput taskID line => d.appendAgentOutput parse taskID line
  | DashEvent.agentCompleted taskID result => d.completeAgent now taskID result
  | DashEvent.versionCheck latestVersion updateAvailable =>
    { d with updateAvailable := updateAvailable, latestVersion := latestVersion }

/-- The sweep of `CancelAllAgents` (ui/dashboard.go:910-917) over the
panel list: every running, non-stopping panel with a runner is marked
stopping and gets one `Runner.Cancel()` call. -/
def cancelAllList : List AgentPanel → List AgentPanel
  | [] => []
  | p :: rest =>
    (if p.isRunning && p.runner.isSome && !p.stopping then markStopping p else p)
      :: cancelAllList rest

/-- `Dashboard.CancelAllAgents` (ui/dashboard.go:910-917). -/
def Dashboard.CancelAllAgents (d : Dashboard) : Dashboard :=
  { d with panels := cancelAllList d.panels }

/-- Capacity of the dashboard's event queue (ui/dashboard.go:212,
`make(chan Event, 200)`). -/
def eventQueueCap : Nat := 200

/-- The error `Send` returns when the event queue is full
(ui/dashboard.go:930). -/
def queueFullError : GoError := GoError.other "dashboard event queue is full"

/-- `Dashboard.Send` (ui/dashboard.go:925-932): non-blocking send into
the bounded event queue; a full queue is reported as an error and the
event is not enqueued. -/
def Dashboard.Send (d : Dashboard) (ev : DashEvent) : Dashboard × Option GoError :=
  if d.events.length < eventQueueCap then
    ({ d with events := d.events ++ [ev] }, none)
  else
    (d, some queueFullError)

/-- Number of `Runner.Cancel()` calls the dashboard has issued for the
panel at index `i` (0 when out of range). -/
def Dashboard.panelCancelCalls (d : Dashboard) (i : Nat) : Nat :=
  ((d.panels.get? i).map AgentPanel.cancelCalls).getD 0

/-- Dashboard states reachable from `NewDashboard` by any sequence of
domain events and mapped input actions. -/
inductive Reachable (parse : String → String) : Dashboard → Prop
  | init (criteria : String) (mode : Bool) : Reachable parse (NewDashboard criteria mode)
  | stepEvent (s : Dashboard) (now : Nat) (ev : DashEvent) :
      Reachable parse s → Reachable parse (s.handleEvent parse now ev)
  | stepInput (s : Dashboard) (i : InputEvent) :
      Reachable parse s → Reachable parse (s.handleInput i).1

/-- The focus invariant: `focusedPanel` is -1 exactly when there are no
panels, and a valid index otherwise. -/
def focusInv (d : Dashboard) : Prop :=
  (d.panels = [] → d.focusedPanel = -1) ∧
  (d.panels ≠ [] → 0 ≤ d.focusedPanel ∧ d.focusedPanel < (d.panels.length : Int))

end Momentum

namespace Momentum

/-! ## Helper lemmas -/

theorem length_modifyAt {α : Type} (l : List α) (i : Nat) (f : α → α) :
    (modifyAt l i f).length = l.length := by
  induction l generalizing i with
  | nil => rfl
  | cons a rest ih =>
    cases i with
    | zero => rfl
    | succ n => simpa [modifyAt] using ih n

theorem get?_modifyAt_self {α : Type} (l : List α) (i : Nat) (f : α → α) :
    (modifyAt l i f).get? i = (l.get? i).map f := by
  induction l generalizing i with
  | nil => cases i <;> rfl
  | cons a rest ih =>
    cases i with
    | zero => rfl
    | succ n => simpa [modifyAt] using ih n

theorem get?_modifyAt_ne {α : Type} (l : List α) (i j : Nat) (f : α → α)
    (h : j ≠ i) : (modifyAt l i f).get? j = l.get? j := by
  induction l generalizing i j with
  | nil => cases i <;> rfl
  | cons a rest ih =>
    cases i with
    | zero =>
      cases j with
      | zero => exact absurd rfl h
      | succ m => rfl
    | succ n =>
      cases j with
      | zero => rfl
      | succ m => simpa [modifyAt] using ih n m (by omega)

theorem length_removeAt {α : Type} (l : List α) (i : Nat) (h : i < l.length) :
    (removeAt l i).length = l.length - 1 := by
  induction l generalizing i with
  | nil => simp at h
  | cons a rest ih =>
    cases i with
    | zero => simp [removeAt]
    | succ n =>
      have h' : n < rest.length := by simpa using h
      simp [removeAt, ih n h']
      omega

theorem get?_removeAt_lt {α : Type} (l : List α) (i j : Nat) (h : j < i) :
    (removeAt l i).get? j = l.get? j := by
  induction l generalizing i j with
  | nil => cases i <;> rfl
  | cons a rest ih =>
    cases i with
    | zero => omega
    | succ n =>
      cases j with
      | zero => rfl
      | succ m => simpa [removeAt] using ih n m (by omega)

theorem get?_removeAt_ge {α : Type} (l : List α) (i j : Nat) (h : i ≤ j) :
    (removeAt l i).get? j = l.get? (j + 1) := by
  induction l generalizing i j with
  | nil => cases i <;> rfl
  | cons a rest ih =>
    cases i with
    | zero => rfl
    | succ n =>
      cases j with
      | zero => omega
      | succ m => simpa [removeAt] using ih n m (by omega)

theorem length_appendAgentOutputList (parse : String → String) (vh : Int)
    (taskID : String) (line : OutputLine) (l : List AgentPanel) :
    (appendAgentOutputList parse vh taskID line l).length = l.length := by
  induction l with
  | nil => rfl
  | cons p rest ih =>
    by_cases h : p.taskID = taskID <;> simp [appendAgentOutputList, h, ih]

theorem length_completeAgentList (now : Nat) (taskID : String) (result : AgentResult)
    (l : List AgentPanel) :
    (completeAgentList now taskID result l).1.length = l.length := by
  induction l with
  | nil => rfl
  | cons p rest ih =>
    by_cases h : p.taskID = taskID <;> simp [completeAgentList, h, ih]

theorem cancelAllList_eq_map (l : List AgentPanel) :
    cancelAllList l = l.map (fun p =>
      if p.isRunning && p.runner.isSome && !p.stopping then markStopping p else p) := by
  induction l with
  | nil => rfl
  | cons p rest ih => simp [cancelAllList, ih]

theorem clampScroll_follow_eq (t v c : Int) (hv : 0 < v) :
    clampScroll t v c true = max 0 (t - v) := by
  simp only [clampScroll]
  split_ifs <;> omega

theorem outputViewHeight_pos (d : Dashboard) : 0 < d.outputViewHeight := by
  simp only [Dashboard.outputViewHeight]
  split_ifs <;> omega

/-! ## Claim theorems -/

/-- C1: the scroll clamp is total and correct: for every `T ≥ 0`, `V`, `P`
and follow flag, `V ≤ 0` gives 0; otherwise with
`maxStart = max(0, T - V)` the result is `maxStart` under follow and `P`
clamped into `[0, maxStart]` otherwise. -/
theorem clampScroll_correct (T V P : Int) (follow : Bool) (hT : 0 ≤ T) :
    (V ≤ 0 → clampScroll T V P follow = 0) ∧
    (0 < V → follow = true → clampScroll T V P follow = max 0 (T - V)) ∧
    (0 < V → follow = false →
      clampScroll T V P follow = min (max P 0) (max 0 (T - V)) ∧
      0 ≤ clampScroll T V P follow ∧
      clampScroll T V P follow ≤ max 0 (T - V)) := by
  refine ⟨fun hV => ?_, fun hV hf => ?_, fun hV hf => ⟨?_, ?_, ?_⟩⟩ <;>
    subst_vars <;> simp only [clampScroll] <;> split_ifs <;>
    first
    | exact (by assumption : False).elim
    | omega

/-- C1 witness: evaluating the clamp at `T = 5, V = 3, P = 10`, no
follow. -/
theorem clampScroll_correct_witness :
    clampScroll 5 3 10 false = min (max 10 0) (max 0 (5 - 3)) :=
  ((clampScroll_correct 5 3 10 false (by decide)).2.2 (by decide) rfl).1

/-- C2 counterexample: with the agent running and signal delivery
failing, `Cancel` performs a direct `Process.Kill()` of the root process
only — it never performs a process-tree kill (`killProcessTree` is not
called on this path), refuting "force-kills the tree". -/
theorem cancel_counterexample :
    (ClaudeCode.Cancel ⟨true, true⟩ true ⟨false, false, true⟩).actions
        = [ProcAction.signalInterrupt, ProcAction.killProc] ∧
    ProcAction.killTree ∉
      (ClaudeCode.Cancel ⟨true, true⟩ true ⟨false, false, true⟩).actions := by
  decide

/-- C2 (amended): `cancel()` is a no-op returning success when the agent
is not running; when running it first sends a graceful interruption, and
if the signal cannot be delivered it immediately force-kills the process
directly (not the process tree); if the signal is delivered it waits up
to a fixed 5-second grace window for natural exit and on timeout
force-kills the process directly. -/
theorem claudeCode_cancel_spec (c : ClaudeCode) (hasProcess : Bool) (env : CancelEnv) :
    graceWindowSeconds = 5 ∧
    (c.running = false → ClaudeCode.Cancel c hasProcess env = ⟨[], none⟩) ∧
    (c.running = true → c.started = true → hasProcess = true →
      (env.signalDelivered = false →
        (ClaudeCode.Cancel c hasProcess env).actions
          = [ProcAction.signalInterrupt, ProcAction.killProc]) ∧
      (env.signalDelivered = true → env.exitsWithinGrace = true →
        ClaudeCode.Cancel c hasProcess env = ⟨[ProcAction.signalInterrupt], none⟩) ∧
      (env.signalDelivered = true → env.exitsWithinGrace = false →
        (ClaudeCode.Cancel c hasProcess env).actions
          = [ProcAction.signalInterrupt, ProcAction.killProc])) := by
  obtain ⟨cs, cr⟩ := c
  obtain ⟨sd, eg, ks⟩ := env
  cases cs <;> cases cr <;> cases hasProcess <;> cases sd <;> cases eg <;> cases ks <;>
    simp [ClaudeCode.Cancel, graceWindowSeconds]

/-- C2 witness: a started but no-longer-running agent: `Cancel` performs
no process action and returns success. -/
theorem claudeCode_cancel_spec_witness :
    ClaudeCode.Cancel ⟨true, false⟩ true ⟨true, true, true⟩ = ⟨[], none⟩ :=
  (claudeCode_cancel_spec ⟨true, false⟩ true ⟨true, true, true⟩).2.1 rfl

/-- C3: `Wait` fails with `NotStarted` before start (leaving the state
untouched); after start it sets the running flag false exactly once and
translates the subprocess outcome: `ExitError` with code `N` becomes
`(N, nil)`, any other failure becomes `(-1, cause)`, and a clean exit
becomes `(0, nil)`. -/
theorem claudeCode_wait_spec (c : ClaudeCode) (w : CmdWaitResult) :
    (c.started = false →
      ClaudeCode.Wait c w = ⟨-1, some GoError.agentNotStarted, c, 0⟩) ∧
    (c.started = true →
      (ClaudeCode.Wait c w).state.running = false ∧
      (ClaudeCode.Wait c w).runningWrites = 1 ∧
      (∀ n, w = CmdWaitResult.exitError n →
        (ClaudeCode.Wait c w).exitCode = n ∧ (ClaudeCode.Wait c w).error = none) ∧
      (∀ e, w = CmdWaitResult.otherError e →
        (ClaudeCode.Wait c w).exitCode = -1 ∧ (ClaudeCode.Wait c w).error = some e) ∧
      (w = CmdWaitResult.success →
        (ClaudeCode.Wait c w).exitCode = 0 ∧ (ClaudeCode.Wait c w).error = none)) := by
  obtain ⟨cs, cr⟩ := c
  cases cs <;> cases w <;> simp [ClaudeCode.Wait]

/-- C3 witness: a started agent whose subprocess exits with code 3:
`Wait` returns `(3, nil)`. -/
theorem claudeCode_wait_spec_witness :
    (ClaudeCode.Wait ⟨true, true⟩ (CmdWaitResult.exitError 3)).exitCode = 3 ∧
    (ClaudeCode.Wait ⟨true, true⟩ (CmdWaitResult.exitError 3)).error = none :=
  ((claudeCode_wait_spec ⟨true, true⟩ (CmdWaitResult.exitError 3)).2 rfl).2.2.1 3 rfl

/-- C8 counterexample: `truncateString` (tui agent pane) returns the
string unchanged when the width is 0, so its result can exceed the
allotted width and width 0 does not yield the empty string. -/
theorem truncateString_counterexample :
    truncateString ['h', 'e', 'l', 'l', 'o'] 0 = ['h', 'e', 'l', 'l', 'o'] ∧
    ¬ ((truncateString ['h', 'e', 'l', 'l', 'o'] 0).length : Int) ≤ 0 := by
  decide

/-- C8 (amended): the dashboard's `truncate` satisfies every listed
property: result length `≤ n`, `n = 0` yields the empty string, `n ≤ 3`
hard-cuts to the first `n` bytes with no ellipsis, longer strings with
`n > 3` are cut and suffixed with `"..."`, and strings that fit are
returned unchanged. The tui `truncateString` agrees with `truncate` only
for `n > 3`; for `n ≤ 3` it returns the string unchanged (so its result
can exceed `n`). -/
theorem truncate_spec (s : List Char) (n : Int) (hn : 0 ≤ n) :
    ((truncate s n).length : Int) ≤ n ∧
    (n = 0 → truncate s n = []) ∧
    (n ≤ 3 → truncate s n = s.take n.toNat) ∧
    (3 < n → n < (s.length : Int) → truncate s n = s.take (n - 3).toNat ++ ellipsisMark) ∧
    ((s.length : Int) ≤ n → truncate s n = s) ∧
    (n ≤ 3 → truncateString s n = s) ∧
    (3 < n → truncateString s n = truncate s n) := by
  refine ⟨?_, ?_, ?_, ?_, ?_, ?_, ?_⟩ <;>
    simp only [truncate, truncateString, ellipsisMark] <;>
    split_ifs <;>
    first
    | rfl
    | (intros; rfl)
    | (intros; omega)
    | (simp [List.length_take, List.length_append]; omega)
    | (intros; exact (List.length_eq_zero.mp (by omega)).symm)

/-- C8 witness: `truncate "hello world" 8 = "hello..."` and the
round-trip at width 10 for `"hello"`. -/
theorem truncate_spec_witness :
    truncate ['h', 'e', 'l', 'l', 'o'] 10 = ['h', 'e', 'l', 'l', 'o'] :=
  (truncate_spec ['h', 'e', 'l', 'l', 'o'] 10 (by decide)).2.2.2.2.1 (by decide)

/-- C9: `Send` either enqueues the event and returns success, or, when
the event queue is full (at capacity 200), leaves the dashboard state
unchanged and returns the queue-full error. -/
theorem dashboard_send_spec (d : Dashboard) (ev : DashEvent) :
    (d.events.length < eventQueueCap →
      d.Send ev = ({ d with events := d.events ++ [ev] }, none)) ∧
    (eventQueueCap ≤ d.events.length →
      d.Send ev = (d, some queueFullError)) := by
  simp only [Dashboard.Send]
  split_ifs with h
  · exact ⟨fun _ => rfl, fun h' => absurd h (by omega)⟩
  · exact ⟨fun h' => absurd h' h, fun _ => rfl⟩

/-- C9 witness: sending into a fresh dashboard's empty queue enqueues the
event and returns success. -/
theorem dashboard_send_spec_witness :
    (NewDashboard "" false).Send DashEvent.listenerConnected
      = ({ NewDashboard "" false with
            events := (NewDashboard "" false).events ++ [DashEvent.listenerConnected] },
         none) :=
  (dashboard_send_spec (NewDashboard "" false) DashEvent.listenerConnected).1 (by decide)


/-! ## Focus invariant machinery -/

theorem focusInv_congr (d e : Dashboard)
    (hlen : e.panels.length = d.panels.length)
    (hf : e.focusedPanel = d.focusedPanel) (h : focusInv d) : focusInv e := by
  obtain ⟨h1, h2⟩ := h
  constructor
  · intro he
    have h0 : d.panels.length = 0 := by rw [← hlen, he]; rfl
    rw [hf]
    exact h1 (List.length_eq_zero.mp h0)
  · intro hne
    have hd : d.panels ≠ [] := by
      intro hnil
      apply hne
      have h0 : e.panels.length = 0 := by rw [hlen, hnil]; rfl
      exact List.length_eq_zero.mp h0
    obtain ⟨ha, hb⟩ := h2 hd
    rw [hf, hlen]
    exact ⟨ha, hb⟩

theorem ensureFollow_focusedPanel (d : Dashboard) (i : Int) :
    (d.ensureFollow i).focusedPanel = d.focusedPanel := by
  unfold Dashboard.ensureFollow
  split_ifs <;> rfl

theorem focusInv_ensureFollow (d : Dashboard) (i : Int) (h : focusInv d) :
    focusInv (d.ensureFollow i) := by
  unfold Dashboard.ensureFollow
  split_ifs with hg
  · exact h
  · exact focusInv_congr d _ (by simpa using length_modifyAt d.panels i.toNat _) rfl h

theorem focusInv_stopFocusedPanel (d : Dashboard) (h : focusInv d) :
    focusInv d.stopFocusedPanel := by
  unfold Dashboard.stopFocusedPanel
  split_ifs with hg
  · exact h
  · split
    · exact h
    · split_ifs with hp
      · exact focusInv_congr d _ (by simpa using length_modifyAt d.panels _ _) rfl h
      · exact h

theorem focusInv_closeFocusedPanel (d : Dashboard) (h : focusInv d) :
    focusInv d.closeFocusedPanel := by
  simp only [Dashboard.closeFocusedPanel]
  split_ifs with hg hz hle
  · exact h
  · refine ⟨fun _ => rfl, fun hne => absurd (List.length_eq_zero.mp hz) hne⟩
  · push_neg at hg
    refine ⟨fun he => absurd (List.length_eq_zero.mpr he) hz, fun _ => ?_⟩
    constructor
    · show (0 : Int) ≤ ((removeAt d.panels d.focusedPanel.toNat).length : Int) - 1
      omega
    · show ((removeAt d.panels d.focusedPanel.toNat).length : Int) - 1
          < ((removeAt d.panels d.focusedPanel.toNat).length : Int)
      omega
  · push_neg at hg hle
    refine ⟨fun he => absurd (List.length_eq_zero.mpr he) hz, fun _ => ?_⟩
    constructor
    · show (0 : Int) ≤ d.focusedPanel
      omega
    · show d.focusedPanel < ((removeAt d.panels d.focusedPanel.toNat).length : Int)
      omega

theorem focusInv_scrollOutput (d : Dashboard) (delta : Int) (h : focusInv d) :
    focusInv (d.scrollOutput delta) := by
  unfold Dashboard.scrollOutput
  split_ifs with hg
  · exact h
  · exact focusInv_congr d _ (by simpa using length_modifyAt d.panels _ _) rfl h

theorem focusInv_scrollToTop (d : Dashboard) (h : focusInv d) :
    focusInv d.scrollToTop := by
  unfold Dashboard.scrollToTop
  split_ifs with hg
  · exact h
  · exact focusInv_congr d _ (by simpa using length_modifyAt d.panels _ _) rfl h

theorem focusInv_scrollToBottom (d : Dashboard) (h : focusInv d) :
    focusInv d.scrollToBottom := by
  unfold Dashboard.scrollToBottom
  split_ifs with hg
  · exact h
  · exact focusInv_congr d _ (by simpa using length_modifyAt d.panels _ _) rfl h

theorem focusInv_setFollow (d : Dashboard) (b : Bool) (h : focusInv d) :
    focusInv (d.setFollow b) := by
  unfold Dashboard.setFollow
  split_ifs with hg
  · exact h
  · exact focusInv_congr d _ (by simpa using length_modifyAt d.panels _ _) rfl h

theorem focusInv_addAgentPanel (d : Dashboard) (now : Nat)
    (taskID taskTitle agentName : String) (runner : Option RunnerRef) (h : focusInv d) :
    focusInv (d.addAgentPanel now taskID taskTitle agentName runner) := by
  simp only [Dashboard.addAgentPanel]
  constructor
  · intro he
    exact absurd (congrArg List.length he) (by simp)
  · intro _
    by_cases hd : d.panels = []
    · simp [hd]
    · have hlen : d.panels.length ≠ 0 := fun h0 => hd (List.length_eq_zero.mp h0)
      obtain ⟨ha, hb⟩ := h.2 hd
      simp only [List.length_append, List.length_cons, List.length_nil]
      rw [if_neg (by omega)]
      refine ⟨ha, by push_cast; omega⟩

theorem focusInv_handleInput (d : Dashboard) (i : InputEvent) (h : focusInv d) :
    focusInv (d.handleInput i).1 := by
  obtain ⟨a, v⟩ := i
  cases a <;> simp only [Dashboard.handleInput]
  case actionNone => exact h
  case actionQuit => exact h
  case actionToggleMode => exact focusInv_congr d _ rfl rfl h
  case actionSelectNext =>
    split_ifs with hz
    · exact h
    · have hd : d.panels ≠ [] := fun hnil => hz (by rw [hnil]; rfl)
      obtain ⟨ha, hb⟩ := h.2 hd
      apply focusInv_ensureFollow
      refine ⟨fun he => absurd he hd, fun _ => ?_⟩
      show 0 ≤ nextFocus d ∧ nextFocus d < (d.panels.length : Int)
      unfold nextFocus
      split_ifs <;> constructor <;> omega
  case actionSelectPrev =>
    split_ifs with hz
    · exact h
    · have hd : d.panels ≠ [] := fun hnil => hz (by rw [hnil]; rfl)
      obtain ⟨ha, hb⟩ := h.2 hd
      apply focusInv_ensureFollow
      refine ⟨fun he => absurd he hd, fun _ => ?_⟩
      show 0 ≤ prevFocus d ∧ prevFocus d < (d.panels.length : Int)
      unfold prevFocus
      split_ifs <;> constructor <;> omega
  case actionStop => exact focusInv_stopFocusedPanel d h
  case actionClose => exact focusInv_closeFocusedPanel d h
  case actionScrollLines => exact focusInv_scrollOutput d v h
  case actionScrollPage => exact focusInv_scrollOutput d _ h
  case actionScrollTop => exact focusInv_scrollToTop d h
  case actionScrollBottom => exact focusInv_scrollToBottom d h
  case actionFollow => exact focusInv_setFollow d true h

theorem focusInv_handleEvent (d : Dashboard) (parse : String → String) (now : Nat)
    (ev : DashEvent) (h : focusInv d) : focusInv (d.handleEvent parse now ev) := by
  cases ev <;> simp only [Dashboard.handleEvent]
  case listenerConnected => exact focusInv_congr d _ rfl rfl h
  case listenerError e => exact focusInv_congr d _ rfl rfl h
  case addAgent taskID taskTitle agentName runner =>
    exact focusInv_addAgentPanel d now taskID taskTitle agentName runner h
  case agentOutput taskID line =>
    exact focusInv_congr d _
      (by simpa [Dashboard.appendAgentOutput] using
        length_appendAgentOutputList parse d.outputViewHeight taskID line d.panels) rfl h
  case agentCompleted taskID result =>
    exact focusInv_congr d _
      (by simpa [Dashboard.completeAgent] using
        length_completeAgentList now taskID result d.panels) rfl h
  case versionCheck latestVersion updateAvailable => exact focusInv_congr d _ rfl rfl h

/-- C4: in every dashboard state reachable from the initial state (empty
panel list, focus -1) by any sequence of domain events and mapped input
actions, the focused index is a valid index into the panel list, and is
-1 exactly when the panel list is empty. -/
theorem dashboard_focus_invariant (parse : String → String) (d : Dashboard)
    (h : Reachable parse d) : focusInv d := by
  induction h with
  | init criteria mode =>
    exact ⟨fun _ => rfl, fun hne => absurd rfl hne⟩
  | stepEvent s now ev _ ih => exact focusInv_handleEvent s parse now ev ih
  | stepInput s i _ ih => exact focusInv_handleInput s i ih

/-- C4 witness: the invariant at the reachable state obtained by adding
one agent panel to a fresh dashboard. -/
theorem dashboard_focus_invariant_witness :
    focusInv ((NewDashboard "" false).handleEvent id 0
      (DashEvent.addAgent "t1" "Title" "claude" none)) :=
  dashboard_focus_invariant id _
    (Reachable.stepEvent _ 0 _ (Reachable.init "" false))

/-- C5: closing the only panel sets focus to -1; closing a focused panel
that is not last keeps focus on the same index, which now holds the next
panel; closing the last panel of two or more shifts focus to the new last
index. -/
theorem closeFocusedPanel_spec (d : Dashboard)
    (h0 : 0 ≤ d.focusedPanel) (h1 : d.focusedPanel < (d.panels.length : Int)) :
    (d.panels.length = 1 →
      d.closeFocusedPanel.panels = [] ∧ d.closeFocusedPanel.focusedPanel = -1) ∧
    (d.focusedPanel < (d.panels.length : Int) - 1 →
      d.closeFocusedPanel.focusedPanel = d.focusedPanel ∧
      d.closeFocusedPanel.panels.get? d.focusedPanel.toNat
        = d.panels.get? (d.focusedPanel.toNat + 1)) ∧
    (2 ≤ d.panels.length → d.focusedPanel = (d.panels.length : Int) - 1 →
      d.closeFocusedPanel.focusedPanel = (d.panels.length : Int) - 2) ∧
    d.closeFocusedPanel.panels.length = d.panels.length - 1 := by
  have hlen : (removeAt d.panels d.focusedPanel.toNat).length = d.panels.length - 1 :=
    length_removeAt d.panels d.focusedPanel.toNat (by omega)
  simp only [Dashboard.closeFocusedPanel]
  rw [if_neg (by omega)]
  refine ⟨fun hone => ?_, fun hlt => ?_, fun h2 hlast => ?_, ?_⟩
  · rw [if_pos (by omega)]
    exact ⟨List.length_eq_zero.mp
      (show (removeAt d.panels d.focusedPanel.toNat).length = 0 by omega), rfl⟩
  · rw [if_neg (by omega), if_neg (by omega)]
    exact ⟨rfl, get?_removeAt_ge d.panels d.focusedPanel.toNat d.focusedPanel.toNat le_rfl⟩
  · rw [if_neg (by omega), if_pos (by omega)]
    show ((removeAt d.panels d.focusedPanel.toNat).length : Int) - 1
        = (d.panels.length : Int) - 2
    omega
  · split_ifs <;> simpa using hlen

/-- C5 witness: a dashboard with two panels focused on the first; closing
keeps focus at index 0, now holding the former second panel. -/
theorem closeFocusedPanel_spec_witness :
    (((NewDashboard "" false).addAgentPanel 0 "t1" "A" "claude" none).addAgentPanel
        0 "t2" "B" "claude" none).closeFocusedPanel.focusedPanel = 0 ∧
    (((NewDashboard "" false).addAgentPanel 0 "t1" "A" "claude" none).addAgentPanel
        0 "t2" "B" "claude" none).closeFocusedPanel.panels.get? 0
      = (((NewDashboard "" false).addAgentPanel 0 "t1" "A" "claude" none).addAgentPanel
          0 "t2" "B" "claude" none).panels.get? 1 :=
  (closeFocusedPanel_spec _ (by decide) (by decide)).2.1 (by decide)


/-! ## Focus cycling -/

theorem ensureFollow_get (d : Dashboard) (i : Int) (h0 : 0 ≤ i)
    (h1 : i < (d.panels.length : Int)) (p' : AgentPanel)
    (hp' : (d.ensureFollow i).panels.get? i.toNat = some p') :
    p'.follow = true ∧
    p'.scrollPos = max 0 ((p'.output.length : Int) - d.outputViewHeight) := by
  unfold Dashboard.ensureFollow at hp'
  rw [if_neg (by omega)] at hp'
  have hp2 : (modifyAt d.panels i.toNat (fun p =>
      { p with
        follow := true
        scrollPos := clampScroll (p.output.length : Int) d.outputViewHeight p.scrollPos true
      })).get? i.toNat = some p' := hp'
  rw [get?_modifyAt_self] at hp2
  cases hq : d.panels.get? i.toNat with
  | none => rw [hq] at hp2; cases hp2
  | some p =>
    rw [hq] at hp2
    simp only [Option.map_some'] at hp2
    obtain rfl : _ = p' := Option.some.inj hp2
    refine ⟨rfl, ?_⟩
    show clampScroll (p.output.length : Int) d.outputViewHeight p.scrollPos true
        = max 0 ((p.output.length : Int) - d.outputViewHeight)
    exact clampScroll_follow_eq _ _ _ (outputViewHeight_pos d)

theorem handleInput_next_eq (d : Dashboard) (hlen : d.panels.length ≠ 0) :
    d.handleInput ⟨InputAction.actionSelectNext, 0⟩
      = (({ d with focusedPanel := nextFocus d }).ensureFollow (nextFocus d), false) := by
  simp only [Dashboard.handleInput]
  rw [if_neg hlen]

theorem handleInput_prev_eq (d : Dashboard) (hlen : d.panels.length ≠ 0) :
    d.handleInput ⟨InputAction.actionSelectPrev, 0⟩
      = (({ d with focusedPanel := prevFocus d }).ensureFollow (prevFocus d), false) := by
  simp only [Dashboard.handleInput]
  rw [if_neg hlen]

/-- C6: focus cycling is cyclic and total: with panels present,
select-next from the last index wraps to 0 and select-prev from index 0
wraps to the last index; with zero panels both selections leave the state
unchanged (focus stays -1); and after any selection from a valid focus,
the newly focused panel has follow re-enabled and its scroll position
re-clamped to the bottom. -/
theorem focus_cycling_spec (d : Dashboard) :
    (d.panels = [] →
      d.handleInput ⟨InputAction.actionSelectNext, 0⟩ = (d, false) ∧
      d.handleInput ⟨InputAction.actionSelectPrev, 0⟩ = (d, false)) ∧
    (d.panels ≠ [] → d.focusedPanel = (d.panels.length : Int) - 1 →
      (d.handleInput ⟨InputAction.actionSelectNext, 0⟩).1.focusedPanel = 0) ∧
    (d.panels ≠ [] → d.focusedPanel = 0 →
      (d.handleInput ⟨InputAction.actionSelectPrev, 0⟩).1.focusedPanel
        = (d.panels.length : Int) - 1) ∧
    (∀ a, (a = InputAction.actionSelectNext ∨ a = InputAction.actionSelectPrev) →
      0 ≤ d.focusedPanel → d.focusedPanel < (d.panels.length : Int) →
      ∀ p', (d.handleInput ⟨a, 0⟩).1.panels.get?
          (d.handleInput ⟨a, 0⟩).1.focusedPanel.toNat = some p' →
        p'.follow = true ∧
        p'.scrollPos = max 0 ((p'.output.length : Int) - d.outputViewHeight)) := by
  refine ⟨fun he => ?_, fun hne hf => ?_, fun hne hf => ?_, fun a ha h0 h1 p' hp' => ?_⟩
  · have hz : d.panels.length = 0 := by rw [he]; rfl
    constructor <;> simp [Dashboard.handleInput, hz]
  · have hlen : d.panels.length ≠ 0 := fun h0 => hne (List.length_eq_zero.mp h0)
    rw [handleInput_next_eq d hlen]
    dsimp only
    rw [ensureFollow_focusedPanel]
    dsimp only
    unfold nextFocus
    rw [if_neg (by omega)]
  · have hlen : d.panels.length ≠ 0 := fun h0 => hne (List.length_eq_zero.mp h0)
    rw [handleInput_prev_eq d hlen]
    dsimp only
    rw [ensureFollow_focusedPanel]
    dsimp only
    unfold prevFocus
    rw [if_neg (by omega)]
  · have hlen : d.panels.length ≠ 0 := by omega
    rcases ha with rfl | rfl
    · rw [handleInput_next_eq d hlen] at hp'
      dsimp only at hp'
      rw [ensureFollow_focusedPanel] at hp'
      dsimp only at hp'
      have hb : 0 ≤ nextFocus d ∧ nextFocus d < (d.panels.length : Int) := by
        unfold nextFocus
        split_ifs <;> constructor <;> omega
      exact ensureFollow_get { d with focusedPanel := nextFocus d } (nextFocus d)
        hb.1 hb.2 p' hp'
    · rw [handleInput_prev_eq d hlen] at hp'
      dsimp only at hp'
      rw [ensureFollow_focusedPanel] at hp'
      dsimp only at hp'
      have hb : 0 ≤ prevFocus d ∧ prevFocus d < (d.panels.length : Int) := by
        unfold prevFocus
        split_ifs <;> constructor <;> omega
      exact ensureFollow_get { d with focusedPanel := prevFocus d } (prevFocus d)
        hb.1 hb.2 p' hp'

/-- C6 witness: a dashboard with two panels focused on index 0;
select-prev wraps focus to the last index. -/
theorem focus_cycling_spec_witness :
    ((((NewDashboard "" false).addAgentPanel 0 "t1" "A" "claude" none).addAgentPanel
        0 "t2" "B" "claude" none).handleInput
      ⟨InputAction.actionSelectPrev, 0⟩).1.focusedPanel
    = (((((NewDashboard "" false).addAgentPanel 0 "t1" "A" "claude" none).addAgentPanel
        0 "t2" "B" "claude" none)).panels.length : Int) - 1 :=
  (focus_cycling_spec _).2.2.1 (by decide) (by decide)


/-! ## Stop idempotence -/

theorem stopFocusedPanel_cases (d : Dashboard) :
    d.stopFocusedPanel = d ∨
    (∃ panel, d.panels.get? d.focusedPanel.toNat = some panel ∧
      (panel.isRunning && panel.runner.isSome && !panel.stopping) = true ∧
      d.stopFocusedPanel = { d with
        panels := modifyAt d.panels d.focusedPanel.toNat markStopping
        stopUpdatesSent := d.stopUpdatesSent ++ [panel.taskID] }) := by
  unfold Dashboard.stopFocusedPanel
  split_ifs with hg
  · exact Or.inl rfl
  · rcases ho : d.panels.get? d.focusedPanel.toNat with _ | panel
    · exact Or.inl rfl
    · by_cases hp : (panel.isRunning && panel.runner.isSome && !panel.stopping) = true
      · refine Or.inr ⟨panel, rfl, hp, ?_⟩
        dsimp only
        rw [if_pos hp]
      · refine Or.inl ?_
        dsimp only
        rw [if_neg hp]

theorem markStopping_not_again (p : AgentPanel) :
    ((markStopping p).isRunning && (markStopping p).runner.isSome
      && !(markStopping p).stopping) = false := by
  simp [markStopping]

theorem stop_stop_eq (d : Dashboard) :
    d.stopFocusedPanel.stopFocusedPanel = d.stopFocusedPanel := by
  rcases stopFocusedPanel_cases d with h | ⟨panel, hq, hp, h⟩
  · rw [h]
    exact h
  · rw [h]
    rcases stopFocusedPanel_cases { d with
        panels := modifyAt d.panels d.focusedPanel.toNat markStopping
        stopUpdatesSent := d.stopUpdatesSent ++ [panel.taskID] } with h2 | ⟨panel2, hq2, hp2, _⟩
    · exact h2
    · exfalso
      have hq2' : (modifyAt d.panels d.focusedPanel.toNat markStopping).get?
          d.focusedPanel.toNat = some panel2 := hq2
      rw [get?_modifyAt_self, hq] at hq2'
      simp only [Option.map_some'] at hq2'
      obtain rfl : markStopping panel = panel2 := Option.some.inj hq2'
      rw [markStopping_not_again panel] at hp2
      cases hp2

theorem stop_panelCancelCalls_le (d : Dashboard) (i : Nat) :
    d.stopFocusedPanel.panelCancelCalls i ≤ d.panelCancelCalls i + 1 := by
  rcases stopFocusedPanel_cases d with h | ⟨panel, hq, hp, h⟩
  · rw [h]
    omega
  · rw [h]
    simp only [Dashboard.panelCancelCalls]
    by_cases hi : i = d.focusedPanel.toNat
    · subst hi
      rw [get?_modifyAt_self, hq]
      simp [markStopping]
    · rw [get?_modifyAt_ne d.panels d.focusedPanel.toNat i markStopping hi]
      omega

theorem cancelAll_panelCancelCalls_le (d : Dashboard) (i : Nat) :
    d.CancelAllAgents.panelCancelCalls i ≤ d.panelCancelCalls i + 1 := by
  simp only [Dashboard.CancelAllAgents, Dashboard.panelCancelCalls]
  rw [cancelAllList_eq_map, List.get?_map]
  cases hq : d.panels.get? i with
  | none => simp
  | some p =>
    simp only [Option.map_some', Option.getD_some]
    split_ifs <;> simp [markStopping]

theorem cancelAll_after_stop_le (d : Dashboard) (i : Nat) :
    d.stopFocusedPanel.CancelAllAgents.panelCancelCalls i ≤ d.panelCancelCalls i + 1 := by
  rcases stopFocusedPanel_cases d with h | ⟨panel, hq, hp, h⟩
  · rw [h]
    exact cancelAll_panelCancelCalls_le d i
  · rw [h]
    simp only [Dashboard.CancelAllAgents, Dashboard.panelCancelCalls]
    rw [cancelAllList_eq_map, List.get?_map]
    by_cases hi : i = d.focusedPanel.toNat
    · subst hi
      rw [get?_modifyAt_self, hq]
      simp only [Option.map_some', Option.getD_some]
      rw [if_neg (by rw [markStopping_not_again panel]; exact Bool.false_ne_true)]
      simp [markStopping]
    · rw [get?_modifyAt_ne d.panels d.focusedPanel.toNat i markStopping hi]
      cases hq2 : d.panels.get? i with
      | none => simp
      | some p =>
        simp only [Option.map_some', Option.getD_some]
        split_ifs <;> simp [markStopping]

/-- C7: stopping is idempotent: applying stop twice leaves the state of
the first stop unchanged, and both stop-twice and the
cancel-all-agents sweep after a stop issue at most one underlying
`Runner.Cancel()` call per panel, because the first application sets the
panel's `stopping` flag and later applications observe it. -/
theorem stop_idempotent (d : Dashboard) :
    d.stopFocusedPanel.stopFocusedPanel = d.stopFocusedPanel ∧
    (∀ i, d.stopFocusedPanel.stopFocusedPanel.panelCancelCalls i
        ≤ d.panelCancelCalls i + 1) ∧
    (∀ i, d.stopFocusedPanel.CancelAllAgents.panelCancelCalls i
        ≤ d.panelCancelCalls i + 1) := by
  refine ⟨stop_stop_eq d, fun i => ?_, fun i => cancelAll_after_stop_le d i⟩
  rw [stop_stop_eq d]
  exact stop_panelCancelCalls_le d i


/-! ## Output routing -/

theorem appendAgentOutputList_no_match (parse : String → String) (vh : Int)
    (taskID : String) (line : OutputLine) (l : List AgentPanel)
    (h : ∀ p ∈ l, p.taskID ≠ taskID) :
    appendAgentOutputList parse vh taskID line l = l := by
  induction l with
  | nil => rfl
  | cons a rest ih =>
    have ha : a.taskID ≠ taskID := h a (by simp)
    simp only [appendAgentOutputList, if_neg ha]
    rw [ih (fun p hp => h p (by simp [hp]))]

theorem appendToPanel_empty_parse (parse : String → String) (vh : Int)
    (line : OutputLine) (p : AgentPanel) (h : parse line.text = "") :
    appendToPanel parse vh line p = p := by
  simp [appendToPanel, h]

theorem appendAgentOutputList_empty_parse (parse : String → String) (vh : Int)
    (taskID : String) (line : OutputLine) (l : List AgentPanel)
    (h : parse line.text = "") :
    appendAgentOutputList parse vh taskID line l = l := by
  induction l with
  | nil => rfl
  | cons a rest ih =>
    by_cases ha : a.taskID = taskID <;>
      simp [appendAgentOutputList, ha, ih, appendToPanel_empty_parse parse vh line a h]

theorem appendAgentOutputList_first_match (parse : String → String) (vh : Int)
    (taskID : String) (line : OutputLine) (l : List AgentPanel) (i : Nat)
    (p : AgentPanel) (hp : l.get? i = some p) (hm : p.taskID = taskID)
    (hfirst : ∀ j q, j < i → l.get? j = some q → q.taskID ≠ taskID) :
    appendAgentOutputList parse vh taskID line l
      = modifyAt l i (appendToPanel parse vh line) := by
  induction l generalizing i with
  | nil => cases i <;> cases hp
  | cons a rest ih =>
    by_cases hm2 : a.taskID = taskID
    · have hi : i = 0 := by
        by_contra hne
        exact hfirst 0 a (by omega) rfl hm2
      subst hi
      simp [appendAgentOutputList, hm2, modifyAt]
    · cases i with
      | zero =>
        obtain rfl : a = p := Option.some.inj hp
        exact absurd hm hm2
      | succ n =>
        simp only [appendAgentOutputList, if_neg hm2, modifyAt]
        rw [ih n (by simpa using hp)
          (fun j q hj hq => hfirst (j + 1) q (by omega) (by simpa using hq))]

theorem appendToPanel_output (parse : String → String) (vh : Int)
    (line : OutputLine) (p : AgentPanel) (h : parse line.text ≠ "") :
    (appendToPanel parse vh line p).output
      = p.output ++ [OutputLine.mk (parse line.text) line.isStderr line.timestamp] := by
  simp only [appendToPanel]
  rw [if_neg h]
  split_ifs <;> rfl

/-- C10: an `AgentOutput` event is routed to the first panel owning its
task id, with the line's text first transformed by the
`parseClaudeOutput` parser; if the transformed text is empty, the whole
event leaves the dashboard unchanged (the line is silently discarded),
so stored lines hold parser output rather than the raw text; and an
event whose task id matches no panel mutates no panel at all. -/
theorem appendAgentOutput_spec (parse : String → String) (d : Dashboard) (now : Nat)
    (taskID : String) (line : OutputLine) :
    ((∀ p ∈ d.panels, p.taskID ≠ taskID) →
      d.handleEvent parse now (DashEvent.agentOutput taskID line) = d) ∧
    (parse line.text = "" →
      d.handleEvent parse now (DashEvent.agentOutput taskID line) = d) ∧
    (∀ i p, d.panels.get? i = some p → p.taskID = taskID →
      (∀ j q, j < i → d.panels.get? j = some q → q.taskID ≠ taskID) →
      parse line.text ≠ "" →
      (d.handleEvent parse now (DashEvent.agentOutput taskID line)).panels.length
          = d.panels.length ∧
      (∀ p', (d.handleEvent parse now (DashEvent.agentOutput taskID line)).panels.get? i
          = some p' →
        p'.output = p.output
          ++ [OutputLine.mk (parse line.text) line.isStderr line.timestamp]) ∧
      (∀ j, j ≠ i →
        (d.handleEvent parse now (DashEvent.agentOutput taskID line)).panels.get? j
          = d.panels.get? j)) := by
  simp only [Dashboard.handleEvent, Dashboard.appendAgentOutput]
  refine ⟨fun hno => ?_, fun hempty => ?_, fun i p hp hm hfirst hne => ?_⟩
  · rw [appendAgentOutputList_no_match parse d.outputViewHeight taskID line d.panels hno]
  · rw [appendAgentOutputList_empty_parse parse d.outputViewHeight taskID line d.panels hempty]
  · rw [appendAgentOutputList_first_match parse d.outputViewHeight taskID line d.panels
      i p hp hm hfirst]
    refine ⟨length_modifyAt d.panels i _, fun p' hp' => ?_, fun j hj =>
      get?_modifyAt_ne d.panels i j _ hj⟩
    rw [get?_modifyAt_self, hp] at hp'
    simp only [Option.map_some'] at hp'
    obtain rfl : appendToPanel parse d.outputViewHeight line p = p' := Option.some.inj hp'
    exact appendToPanel_output parse d.outputViewHeight line p hne

/-- C10 witness: on a dashboard with no panels, an output event for an
unknown task id leaves the state unchanged. -/
theorem appendAgentOutput_spec_witness :
    (NewDashboard "" false).handleEvent id 0
        (DashEvent.agentOutput "t9" (OutputLine.mk "x" false 0))
      = NewDashboard "" false :=
  (appendAgentOutput_spec id (NewDashboard "" false) 0 "t9"
    (OutputLine.mk "x" false 0)).1 (by intro p hp; cases hp)

end Momentum
